import Mathlib

/-!
Verification of the `wagtailapi` read-only REST API module
(`src/wagtailapi/api.py`) against its natural-language specification.

The embedding below translates the request-processing pipeline of
`BaseAPIEndpoint` and its three concrete variants (`PagesAPIEndpoint`,
`ImagesAPIEndpoint`, `DocumentsAPIEndpoint`) into executable Lean
definitions.  External collaborators (the Django ORM collection
primitives, the search backend, `resolve_model_string`, the request
object) are modelled as explicit data or function parameters, exactly
as the spec prescribes ("this layer does not define those primitives
implementation, only their required signatures").

Modelling conventions:
- a queryset is a `List Obj`, in its current order;
- an HTTP request is its list of GET parameters; `request.GET[k]`
  returns the last value bound to `k` (Django `QueryDict` semantics);
- scalar attribute values are `Scalar` (strings and integers), which is
  the value space the claims exercise; `force_text(v, strings_only=True)`
  is the identity on this space (both strings and ints pass through);
- `queryset.order_by(f)` is modelled as a stable ascending insertion
  sort on the field key, and `queryset.reverse()` as sequence reversal,
  the two-step semantics the spec documents for descending order;
- child relation objects are never `Page` instances (the
  `isinstance(obj, Page)` guard in `get_api_data`), so their
  serialization only ever uses the field/attribute branches; they are
  therefore modelled by the flat `ChildObj`.
-/

/-- A scalar attribute value: the API surfaces strings and integers. -/
inductive Scalar where
  | str : String → Scalar
  | int : Int → Scalar
deriving DecidableEq, Repr

/-- A value of a serialized document entry: a scalar, one embedded
ordered dict of scalars (the `meta` block), or a list of embedded
dicts (a serialized child relation). -/
inductive Value where
  | scalar : Scalar → Value
  | doc : List (String × Scalar) → Value
  | docs : List (List (String × Scalar)) → Value
deriving DecidableEq, Repr

/-- A content model (Django model class): whether it declares
`api_fields` (`hasattr(model, 'api_fields')` and its value), and which
model fields the generated `filterset_factory(model)` filter set
offers. -/
structure Model where
  apiFields : Option (List String)
  filterFields : List String
deriving DecidableEq, Repr

/-- An object reachable through a child relation of a page.  Such
objects are not pages, so `get_api_data` resolves their fields only
through the stored-field and attribute branches. -/
structure ChildObj where
  djFields : List (String × Scalar)
  attrs : List (String × Scalar)
deriving DecidableEq, Repr

/-- One child relation of a page: the related name, the related model's
`api_fields` declaration (if any), and the related objects. -/
structure ChildRel where
  name : String
  relatedApiFields : Option (List String)
  objects : List ChildObj
deriving DecidableEq, Repr

/-- A domain object (page, image or document). -/
structure Obj where
  id : Int
  model : Model
  isPage : Bool
  typeTag : String
  parentId : Int
  childRels : List ChildRel
  djFields : List (String × Scalar)
  attrs : List (String × Scalar)
deriving DecidableEq, Repr

/-- An HTTP GET request: its query parameters in order. -/
structure Request where
  params : List (String × String)
deriving DecidableEq, Repr

/-- `request.GET[name]` / `request.GET.get(name)`: the last value bound
to `name` (Django `QueryDict` semantics), or `none` when absent. -/
def Request.getParam (req : Request) (name : String) : Option String :=
  (req.params.reverse.find? (fun p => p.1 = name)).map (fun p => p.2)

/-- The two recoverable error kinds of the module: `BadRequestError`
(surfaced as HTTP 400) and `Http404` (surfaced as HTTP 404). -/
inductive ApiError where
  | badRequest : String → ApiError
  | notFound : String → ApiError
deriving DecidableEq, Repr

/-- A JSON response body: a listing envelope, a flat detail document,
or the `{"message": ...}` error envelope. -/
inductive Body where
  | listing : Nat → String → List (List (String × Value)) → Body
  | document : List (String × Value) → Body
  | errorMessage : String → Body
deriving DecidableEq, Repr

/-- An HTTP response: status code and JSON body. -/
structure HttpResponse where
  status : Nat
  body : Body
deriving DecidableEq, Repr

/-- The external full-text search backend:
`search(query, collection) -> collection`. -/
abbrev SearchBackend := String → List Obj → List Obj

/-- `force_text(value, strings_only=True)`: with `strings_only` set,
non-string scalar types (integers) pass through unchanged and strings
are already text, so on `Scalar` this is the identity. -/
def force_text (v : Scalar) : Scalar := v

/-- The value of a stored (Django) field of an object, as found by
`obj._meta.get_field_by_name(f)`; the primary key `id` is itself a
stored field. -/
def fieldKey (o : Obj) (f : String) : Option Scalar :=
  if f = "id" then some (Scalar.int o.id) else List.lookup f o.djFields

/-- Field resolution for a child relation object (`get_api_data` lines
44-56, reached with empty `child_relations`): stored field first, then
attribute coerced by `force_text`. -/
def resolveChildField (c : ChildObj) (f : String) : Option Scalar :=
  match List.lookup f c.djFields with
  | some v => some v
  | none => (List.lookup f c.attrs).map force_text

/-- Serialization of one child relation object with the related model's
own `api_fields` (the inner `get_api_data` call of line 39): fields
that resolve are emitted in order, the rest are silently omitted. -/
def getApiDataChild (c : ChildObj) (fields : List String) : List (String × Scalar) :=
  fields.filterMap (fun f => (resolveChildField c f).map (fun v => (f, v)))

/-- Resolution of one field name against an object, mirroring the loop
body of `get_api_data`: (a) a child relation whose related model has
`api_fields` yields nested documents; (b) otherwise a stored field;
(c) otherwise an attribute coerced by `force_text`; (d) otherwise the
field is unresolved. -/
def resolveField (o : Obj) (f : String) : Option Value :=
  let plain : Option Value :=
    match fieldKey o f with
    | some v => some (Value.scalar v)
    | none => (List.lookup f o.attrs).map (fun v => Value.scalar (force_text v))
  let rels := if o.isPage then o.childRels else []
  match rels.find? (fun r => r.name = f) with
  | some rel =>
    match rel.relatedApiFields with
    | some afs => some (Value.docs (rel.objects.map (fun c => getApiDataChild c afs)))
    | none => plain
  | none => plain

/-- `get_api_data(obj, fields)`: loop through the requested fields in
order, yielding each field that resolves and silently omitting each
field that does not. -/
def get_api_data (o : Obj) (fields : List String) : List (String × Value) :=
  fields.filterMap (fun f => (resolveField o f).map (fun v => (f, v)))

/-- Python `dict` insertion of one key-value pair: an existing key keeps
its position and is updated in place, a new key is appended. -/
def odInsert (acc : List (String × Value)) (p : String × Value) : List (String × Value) :=
  if p.1 ∈ acc.map Prod.fst then
    acc.map (fun q => if q.1 = p.1 then (q.1, p.2) else q)
  else
    acc ++ [p]

/-- `OrderedDict(data)` for an association list `data`: keys keep the
position of their first occurrence, each key holds the last value bound
to it. -/
def toOrderedDict (l : List (String × Value)) : List (String × Value) :=
  l.foldl odInsert []

/-- One step of first-occurrence key deduplication. -/
def dedupStep (acc : List String) (k : String) : List String :=
  if k ∈ acc then acc else acc ++ [k]

/-- First-occurrence deduplication of a key list: the key sequence an
`OrderedDict` built from a pair list with these keys ends up with. -/
def dedupKeys (l : List String) : List String :=
  l.foldl dedupStep []

/-- `BaseAPIEndpoint.get_api_fields(model)`: the model's declared
`api_fields` when present, else empty. -/
def base_get_api_fields (model : Model) : List String :=
  match model.apiFields with
  | some fs => fs
  | none => []

/-- `PagesAPIEndpoint.get_api_fields(model)`:
`['title']` extended with the base fields. -/
def pages_get_api_fields (model : Model) : List String :=
  ["title"] ++ base_get_api_fields model

/-- `ImagesAPIEndpoint.get_api_fields(model)`:
`['title', 'width', 'height']` extended with the base fields. -/
def images_get_api_fields (model : Model) : List String :=
  ["title", "width", "height"] ++ base_get_api_fields model

/-- `DocumentsAPIEndpoint.get_api_fields(model)`:
`['title']` extended with the base fields. -/
def documents_get_api_fields (model : Model) : List String :=
  ["title"] ++ base_get_api_fields model

/-- `BaseAPIEndpoint.serialize_object_metadata`: an empty ordered
dict. -/
def base_serialize_object_metadata (_page : Obj) (_show_details : Bool) : List (String × Scalar) :=
  []

/-- `PagesAPIEndpoint.serialize_object_metadata`: the base metadata,
then the `type` tag, then `parent_id` when `show_details` is set. -/
def pages_serialize_object_metadata (page : Obj) (show_details : Bool) : List (String × Scalar) :=
  let data := base_serialize_object_metadata page show_details
  let data := data ++ [("type", Scalar.str page.typeTag)]
  if show_details then data ++ [("parent_id", Scalar.int page.parentId)] else data

/-- `BaseAPIEndpoint.serialize_object(obj, fields, all_fields,
show_details)`: `id` first, the `meta` block only when the metadata is
non-empty, then the resolved fields — the full registry when
`all_fields` is set, else the requested fields restricted to the
registry — assembled into an `OrderedDict`. -/
def serialize_object (getApiFields : Model → List String)
    (metadataFn : Obj → Bool → List (String × Scalar))
    (obj : Obj) (fields : List String) (all_fields : Bool) (show_details : Bool) :
    List (String × Value) :=
  let data : List (String × Value) := [("id", Value.scalar (Scalar.int obj.id))]
  let metadata := metadataFn obj show_details
  let data := if metadata.isEmpty then data else data ++ [("meta", Value.doc metadata)]
  let api_fields := getApiFields obj.model
  let fields2 := if all_fields then api_fields else fields.filter (fun f => f ∈ api_fields)
  toOrderedDict (data ++ get_api_data obj fields2)

/-- Whether an object satisfies one exact-equality field filter: the
stored field exists and its text form equals the parameter value (the
string-typed coercion `django_filters` performs before comparing). -/
def fieldMatches (o : Obj) (f v : String) : Bool :=
  match fieldKey o f with
  | some (Scalar.str s) => s = v
  | some (Scalar.int n) => toString n = v
  | none => false

/-- `BaseAPIEndpoint.do_field_filtering(request, queryset)`: the
`filterset_factory(queryset.model)` filter set runs one exact filter
per model field that occurs among the GET parameters; GET parameters
that name no model field are silently ignored (the behavior the repo's
`test_filtering_unknown_field_gives_error`, marked `expectedFailure`,
documents). -/
def do_field_filtering (filterFields : List String) (req : Request) (queryset : List Obj) :
    List Obj :=
  match filterFields with
  | [] => queryset
  | f :: rest =>
    do_field_filtering rest req
      (match req.getParam f with
       | some v => queryset.filter (fun o => fieldMatches o f v)
       | none => queryset)

/-- Lexicographic comparison of two character lists (the store's text
collation, modelled explicitly so that it evaluates). -/
def charListLt : List Char → List Char → Bool
  | [], [] => false
  | [], _ :: _ => true
  | _ :: _, [] => false
  | a :: as, b :: bs => if a < b then true else if b < a then false else charListLt as bs

/-- Lexicographic comparison of two strings. -/
def strLt (a b : String) : Bool := charListLt a.data b.data

/-- Ascending comparison of two scalar field keys. -/
def scalarLt : Scalar → Scalar → Bool
  | Scalar.int a, Scalar.int b => a < b
  | Scalar.str a, Scalar.str b => strLt a b
  | Scalar.int _, Scalar.str _ => true
  | Scalar.str _, Scalar.int _ => false

/-- Ascending comparison of two objects on a field (absent keys sort
first). -/
def keyLt (f : String) (a b : Obj) : Bool :=
  match fieldKey a f, fieldKey b f with
  | some x, some y => scalarLt x y
  | none, some _ => true
  | some _, none => false
  | none, none => false

/-- Stable insertion: place `x` before the first element it is not
strictly greater than, so that elements processed earlier stay before
equal elements processed later. -/
def insertAsc (lt : Obj → Obj → Bool) (x : Obj) : List Obj → List Obj
  | [] => [x]
  | y :: ys => if lt y x then y :: insertAsc lt x ys else x :: y :: ys

/-- `queryset.order_by(f)`: a stable ascending sort on the field key. -/
def sortByField (f : String) (qs : List Obj) : List Obj :=
  qs.foldr (insertAsc (keyLt f)) []

/-- Modelled from the spec: the independent stable descending sort that
`order=-f` does NOT perform — used to compare the code's
sort-ascending-then-reverse behavior against it. -/
def stableDescSort (f : String) (qs : List Obj) : List Obj :=
  qs.foldr (insertAsc (fun a b => keyLt f b a)) []

/-- `order_by.startswith('-')`: whether the string begins with the
descending marker. -/
def startsWithDash (s : String) : Bool :=
  match s.data with
  | [] => false
  | c :: _ => c = '-'

/-- `BaseAPIEndpoint.do_ordering(request, queryset)`: no-op without an
`order` parameter; otherwise strip one leading `-` (remembering to
reverse), require the field to be `id` or registered (else
`BadRequestError` naming the field), sort ascending, and reverse the
sorted sequence when `-` was given. -/
def do_ordering (getApiFields : Model → List String) (model : Model)
    (req : Request) (queryset : List Obj) : Except ApiError (List Obj) :=
  match req.getParam "order" with
  | none => Except.ok queryset
  | some order0 =>
    let reverse_order := startsWithDash order0
    let order_by := if reverse_order then order0.drop 1 else order0
    if order_by = "id" ∨ order_by ∈ getApiFields model then
      let sorted := sortByField order_by queryset
      Except.ok (if reverse_order then sorted.reverse else sorted)
    else
      Except.error (ApiError.badRequest
        ("cannot order by \x27" ++ order_by ++ "\x27 (unknown field)"))

/-- `BaseAPIEndpoint.do_search(request, queryset)`: delegate to the
search backend when a `search` parameter is present, else pass the
collection through. -/
def do_search (sb : SearchBackend) (req : Request) (queryset : List Obj) : List Obj :=
  match req.getParam "search" with
  | none => queryset
  | some q => sb q queryset

/-- Python `int(s)` on a decimal string: an optional sign followed by
at least one digit, else failure. -/
def digitsToNat (cs : List Char) : Option Nat :=
  if cs.isEmpty then none
  else if cs.all (fun c => c.isDigit) then
    some (cs.foldl (fun n c => 10 * n + (c.toNat - 48)) 0)
  else none

/-- Python `int(s)` for a string argument. -/
def pyInt (s : String) : Option Int :=
  match s.data with
  | [] => none
  | c :: rest =>
    if c = '-' then (digitsToNat rest).map (fun n => -(n : Int))
    else if c = '+' then (digitsToNat rest).map (fun n => (n : Int))
    else (digitsToNat (c :: rest)).map (fun n => (n : Int))

/-- `BaseAPIEndpoint.do_pagination(request, queryset)`: parse `offset`
(default 0) and `limit` (default 20), each of which must be a
non-negative integer or the corresponding `BadRequestError` is raised,
then return the slice `queryset[offset : offset + limit]`. -/
def do_pagination (req : Request) (queryset : List Obj) : Except ApiError (List Obj) :=
  let offsetVal : Option Int :=
    match req.getParam "offset" with
    | none => some 0
    | some s => pyInt s
  match offsetVal with
  | some offset =>
    if 0 ≤ offset then
      let limitVal : Option Int :=
        match req.getParam "limit" with
        | none => some 20
        | some s => pyInt s
      match limitVal with
      | some limit =>
        if 0 ≤ limit then
          Except.ok ((queryset.drop offset.toNat).take limit.toNat)
        else Except.error (ApiError.badRequest "limit must be a positive integer")
      | none => Except.error (ApiError.badRequest "limit must be a positive integer")
    else Except.error (ApiError.badRequest "offset must be a positive integer")
  | none => Except.error (ApiError.badRequest "offset must be a positive integer")

/-- `BaseAPIEndpoint.api_view`: a successful view gives HTTP 200;
`Http404` is formatted as `{"message": ...}` with status 404 and
`BadRequestError` as `{"message": ...}` with status 400. -/
def api_view (result : Except ApiError Body) : HttpResponse :=
  match result with
  | Except.ok body => ⟨200, body⟩
  | Except.error (ApiError.notFound msg) => ⟨404, Body.errorMessage msg⟩
  | Except.error (ApiError.badRequest msg) => ⟨400, Body.errorMessage msg⟩

/-- `PagesAPIEndpoint.get_model(request)`: `Page` itself without a
`type` parameter; otherwise resolve the type name, raising `Http404`
when it does not resolve. -/
def pages_get_model (resolveType : String → Option Model) (pageModel : Model)
    (req : Request) : Except ApiError Model :=
  match req.getParam "type" with
  | none => Except.ok pageModel
  | some t =>
    match resolveType t with
    | some m => Except.ok m
    | none => Except.error (ApiError.notFound "Type doesn\x27t exist")

/-- `PagesAPIEndpoint.do_child_of_filter(request, queryset)`: with a
`child_of` parameter, look the parent page up by id (`Http404` when it
does not exist) and keep the direct children of that parent. -/
def do_child_of_filter (allPages : List Obj) (req : Request) (queryset : List Obj) :
    Except ApiError (List Obj) :=
  match req.getParam "child_of" with
  | none => Except.ok queryset
  | some pid =>
    match allPages.find? (fun p => toString p.id = pid) with
    | some parent => Except.ok (queryset.filter (fun o => o.parentId = parent.id))
    | none => Except.error (ApiError.notFound "Parent page doesn\x27t exist")

/-- The pages listing pipeline up to and including search (the part of
`PagesAPIEndpoint.listing_view` that precedes the `total_count`
computation): resolve the model, take its base queryset, filter by
fields, by `child_of`, order, and search. -/
def pages_pre (resolveType : String → Option Model) (pageModel : Model)
    (baseCollection : Model → List Obj) (allPages : List Obj)
    (sb : SearchBackend) (req : Request) : Except ApiError (List Obj) :=
  match pages_get_model resolveType pageModel req with
  | Except.error e => Except.error e
  | Except.ok model =>
    match do_child_of_filter allPages req
        (do_field_filtering model.filterFields req (baseCollection model)) with
    | Except.error e => Except.error e
    | Except.ok qs1 =>
      match do_ordering pages_get_api_fields model req qs1 with
      | Except.error e => Except.error e
      | Except.ok qs2 => Except.ok (do_search sb req qs2)

/-- `PagesAPIEndpoint.listing_view(request)`: run the pipeline, count
the collection before pagination, paginate, and serialize each page of
the slice with the requested fields (the comma-split `fields` parameter
when given, else `('title',)`). -/
def pages_listing_view (resolveType : String → Option Model) (pageModel : Model)
    (baseCollection : Model → List Obj) (allPages : List Obj)
    (sb : SearchBackend) (req : Request) : Except ApiError Body :=
  match pages_pre resolveType pageModel baseCollection allPages sb req with
  | Except.error e => Except.error e
  | Except.ok qs =>
    let total_count := qs.length
    match do_pagination req qs with
    | Except.error e => Except.error e
    | Except.ok page =>
      let fields :=
        match req.getParam "fields" with
        | some s => s.splitOn ","
        | none => ["title"]
      Except.ok (Body.listing total_count "pages"
        (page.map (fun p =>
          serialize_object pages_get_api_fields pages_serialize_object_metadata
            p fields false false)))

/-- The images listing pipeline up to and including search: filter the
base collection by fields, order, and search. -/
def images_pre (imagesModel : Model) (sb : SearchBackend) (images : List Obj)
    (req : Request) : Except ApiError (List Obj) :=
  match do_ordering images_get_api_fields imagesModel req
      (do_field_filtering imagesModel.filterFields req images) with
  | Except.error e => Except.error e
  | Except.ok qs => Except.ok (do_search sb req qs)

/-- `ImagesAPIEndpoint.listing_view(request)`: run the pipeline, count
before pagination, paginate, and serialize each image with the
requested fields (the comma-split `fields` parameter when given, else
`('title',)`). -/
def images_listing_view (imagesModel : Model) (sb : SearchBackend) (images : List Obj)
    (req : Request) : Except ApiError Body :=
  match images_pre imagesModel sb images req with
  | Except.error e => Except.error e
  | Except.ok qs =>
    let total_count := qs.length
    match do_pagination req qs with
    | Except.error e => Except.error e
    | Except.ok page =>
      let fields :=
        match req.getParam "fields" with
        | some s => s.splitOn ","
        | none => ["title"]
      Except.ok (Body.listing total_count "images"
        (page.map (fun i =>
          serialize_object images_get_api_fields base_serialize_object_metadata
            i fields false false)))

/-- The documents listing pipeline up to and including search: filter
`Document.objects.all()` by fields, order, and search. -/
def documents_pre (docModel : Model) (sb : SearchBackend) (documents : List Obj)
    (req : Request) : Except ApiError (List Obj) :=
  match do_ordering documents_get_api_fields docModel req
      (do_field_filtering docModel.filterFields req documents) with
  | Except.error e => Except.error e
  | Except.ok qs => Except.ok (do_search sb req qs)

/-- `DocumentsAPIEndpoint.listing_view(request)`: run the pipeline,
count before pagination, paginate, and serialize each document with the
fixed field tuple `('title',)` — this view never reads the `fields`
parameter. -/
def documents_listing_view (docModel : Model) (sb : SearchBackend) (documents : List Obj)
    (req : Request) : Except ApiError Body :=
  match documents_pre docModel sb documents req with
  | Except.error e => Except.error e
  | Except.ok qs =>
    let total_count := qs.length
    match do_pagination req qs with
    | Except.error e => Except.error e
    | Except.ok page =>
      Except.ok (Body.listing total_count "documents"
        (page.map (fun d =>
          serialize_object documents_get_api_fields base_serialize_object_metadata
            d ["title"] false false)))

/-- A document object used by concrete instances below: id 1, a stored
`title` field, a stored `tag` field declared in `api_fields`. -/
def docObjEx : Obj :=
  ⟨1, ⟨some ["tag"], ["title", "tag"]⟩, false, "", 0, [],
    [("title", Scalar.str "A Clockwork Orange"), ("tag", Scalar.str "novel")], []⟩

/-- A bare document object: `title` is declared but neither stored nor
an attribute of the object. -/
def docObjBare : Obj :=
  ⟨1, ⟨some [], []⟩, false, "", 0, [], [], []⟩

/-- A helper building a minimal object with a given id and title, used
as concrete input of witnesses. -/
def mkDoc (i : Int) (title : String) : Obj :=
  ⟨i, ⟨some [], ["title"]⟩, false, "", 0, [], [("title", Scalar.str title)], []⟩

/-! Helper lemmas about `OrderedDict` key sequences. -/

theorem odInsert_map_fst (acc : List (String × Value)) (p : String × Value) :
    (odInsert acc p).map Prod.fst = dedupStep (acc.map Prod.fst) p.1 := by
  unfold odInsert dedupStep
  by_cases h : p.1 ∈ acc.map Prod.fst
  · rw [if_pos h, if_pos h, List.map_map]
    apply List.map_congr_left
    intro q _
    by_cases hq : q.1 = p.1 <;> simp [hq, Function.comp]
  · rw [if_neg h, if_neg h]
    simp

theorem foldl_odInsert_map_fst (l : List (String × Value)) :
    ∀ acc, ((l.foldl odInsert acc).map Prod.fst)
      = (l.map Prod.fst).foldl dedupStep (acc.map Prod.fst) := by
  induction l with
  | nil => intro acc; rfl
  | cons p t ih =>
    intro acc
    simp only [List.foldl_cons, List.map_cons]
    rw [ih, odInsert_map_fst]

theorem toOrderedDict_map_fst (l : List (String × Value)) :
    (toOrderedDict l).map Prod.fst = dedupKeys (l.map Prod.fst) := by
  unfold toOrderedDict dedupKeys
  simpa using foldl_odInsert_map_fst l []

theorem mem_foldl_dedupStep (l : List String) :
    ∀ acc k, k ∈ l.foldl dedupStep acc ↔ k ∈ acc ∨ k ∈ l := by
  induction l with
  | nil => intro acc k; simp
  | cons a t ih =>
    intro acc k
    simp only [List.foldl_cons]
    rw [ih]
    unfold dedupStep
    by_cases h : a ∈ acc
    · rw [if_pos h]
      constructor
      · rintro (hk | hk)
        · exact Or.inl hk
        · exact Or.inr (List.mem_cons_of_mem _ hk)
      · rintro (hk | hk)
        · exact Or.inl hk
        · rcases List.mem_cons.mp hk with rfl | hk
          · exact Or.inl h
          · exact Or.inr hk
    · rw [if_neg h]
      simp only [List.mem_append, List.mem_singleton, List.mem_cons]
      tauto

theorem mem_dedupKeys (l : List String) (k : String) : k ∈ dedupKeys l ↔ k ∈ l := by
  unfold dedupKeys
  rw [mem_foldl_dedupStep]
  simp

theorem head?_foldl_dedupStep (l : List String) :
    ∀ acc, acc ≠ [] → (l.foldl dedupStep acc).head? = acc.head? := by
  induction l with
  | nil => intro acc _; rfl
  | cons a t ih =>
    intro acc hacc
    simp only [List.foldl_cons]
    have hne : dedupStep acc a ≠ [] := by
      unfold dedupStep
      split
      · exact hacc
      · simp
    rw [ih _ hne]
    unfold dedupStep
    split
    · rfl
    · cases acc with
      | nil => exact absurd rfl hacc
      | cons x xs => simp

theorem head?_dedupKeys_cons (a : String) (t : List String) :
    (dedupKeys (a :: t)).head? = some a := by
  unfold dedupKeys
  simp only [List.foldl_cons]
  have h1 : dedupStep [] a = [a] := by unfold dedupStep; simp
  rw [h1, head?_foldl_dedupStep t [a] (by simp)]
  rfl

theorem map_fst_filterMap_pair {α : Type} (g : String → Option α) (fields : List String) :
    (fields.filterMap (fun f => (g f).map (fun v => (f, v)))).map Prod.fst
      = fields.filter (fun f => (g f).isSome) := by
  induction fields with
  | nil => rfl
  | cons f t ih =>
    simp only [List.filterMap_cons, List.filter_cons]
    cases h : g f <;> simp [h, ih]

theorem get_api_data_map_fst (o : Obj) (fields : List String) :
    (get_api_data o fields).map Prod.fst
      = fields.filter (fun f => (resolveField o f).isSome) := by
  unfold get_api_data
  exact map_fst_filterMap_pair (resolveField o) fields

/-- The key sequence of a serialized document: `id`, then `meta` when
the metadata is non-empty, then the requested-and-resolvable fields in
order, with first-occurrence deduplication. -/
theorem serialize_object_map_fst (G : Model → List String)
    (M : Obj → Bool → List (String × Scalar)) (obj : Obj) (fields : List String)
    (af sd : Bool) :
    (serialize_object G M obj fields af sd).map Prod.fst =
      dedupKeys (("id" :: (if (M obj sd).isEmpty then [] else ["meta"]))
        ++ ((if af then G obj.model
              else fields.filter (fun f => f ∈ G obj.model)).filter
            (fun f => (resolveField obj f).isSome))) := by
  unfold serialize_object
  rw [toOrderedDict_map_fst]
  congr 1
  cases h : (M obj sd).isEmpty <;>
    cases af <;>
      simp [h, get_api_data_map_fst]

/-! Congruence of the pipeline stages in the request: each stage reads
only its own parameters. -/

theorem do_field_filtering_congr : ∀ (flds : List String) (r1 r2 : Request),
    (∀ f ∈ flds, r1.getParam f = r2.getParam f) →
    ∀ qs, do_field_filtering flds r1 qs = do_field_filtering flds r2 qs := by
  intro flds
  induction flds with
  | nil => intro r1 r2 _ qs; rfl
  | cons f t ih =>
    intro r1 r2 h qs
    unfold do_field_filtering
    rw [h f (List.mem_cons_self f t)]
    exact ih r1 r2 (fun g hg => h g (List.mem_cons_of_mem _ hg)) _

theorem do_ordering_congr (G : Model → List String) (m : Model) (r1 r2 : Request)
    (h : r1.getParam "order" = r2.getParam "order") (qs : List Obj) :
    do_ordering G m r1 qs = do_ordering G m r2 qs := by
  unfold do_ordering
  rw [h]

theorem do_search_congr (sb : SearchBackend) (r1 r2 : Request)
    (h : r1.getParam "search" = r2.getParam "search") (qs : List Obj) :
    do_search sb r1 qs = do_search sb r2 qs := by
  unfold do_search
  rw [h]

theorem do_child_of_filter_congr (ap : List Obj) (r1 r2 : Request)
    (h : r1.getParam "child_of" = r2.getParam "child_of") (qs : List Obj) :
    do_child_of_filter ap r1 qs = do_child_of_filter ap r2 qs := by
  unfold do_child_of_filter
  rw [h]

theorem pages_get_model_congr (rt : String → Option Model) (pm : Model) (r1 r2 : Request)
    (h : r1.getParam "type" = r2.getParam "type") :
    pages_get_model rt pm r1 = pages_get_model rt pm r2 := by
  unfold pages_get_model
  rw [h]

theorem pages_get_model_ok (rt : String → Option Model) (pm : Model) (r : Request)
    (m : Model) (h : pages_get_model rt pm r = Except.ok m) :
    m = pm ∨ ∃ t, rt t = some m := by
  unfold pages_get_model at h
  cases hg : r.getParam "type" with
  | none =>
    simp only [hg, Except.ok.injEq] at h
    exact Or.inl h.symm
  | some t =>
    simp only [hg] at h
    cases hr : rt t with
    | none => simp only [hr] at h; exact absurd h (by simp)
    | some m2 =>
      simp only [hr, Except.ok.injEq] at h
      exact Or.inr ⟨t, by rw [hr, h]⟩

theorem documents_pre_congr (dm : Model) (sb : SearchBackend) (docs : List Obj)
    (r1 r2 : Request)
    (hff : ∀ f ∈ dm.filterFields, r1.getParam f = r2.getParam f)
    (hord : r1.getParam "order" = r2.getParam "order")
    (hsearch : r1.getParam "search" = r2.getParam "search") :
    documents_pre dm sb docs r1 = documents_pre dm sb docs r2 := by
  unfold documents_pre
  rw [do_field_filtering_congr _ _ _ hff docs, do_ordering_congr _ _ _ _ hord]
  cases do_ordering documents_get_api_fields dm r2 (do_field_filtering dm.filterFields r2 docs) with
  | error e => rfl
  | ok qs => simp only; rw [do_search_congr sb r1 r2 hsearch qs]

theorem images_pre_congr (im : Model) (sb : SearchBackend) (imgs : List Obj)
    (r1 r2 : Request)
    (hff : ∀ f ∈ im.filterFields, r1.getParam f = r2.getParam f)
    (hord : r1.getParam "order" = r2.getParam "order")
    (hsearch : r1.getParam "search" = r2.getParam "search") :
    images_pre im sb imgs r1 = images_pre im sb imgs r2 := by
  unfold images_pre
  rw [do_field_filtering_congr _ _ _ hff imgs, do_ordering_congr _ _ _ _ hord]
  cases do_ordering images_get_api_fields im r2 (do_field_filtering im.filterFields r2 imgs) with
  | error e => rfl
  | ok qs => simp only; rw [do_search_congr sb r1 r2 hsearch qs]

theorem pages_pre_congr (rt : String → Option Model) (pm : Model)
    (bc : Model → List Obj) (ap : List Obj) (sb : SearchBackend) (r1 r2 : Request)
    (hp : ∀ p, p ≠ "limit" → p ≠ "offset" → r1.getParam p = r2.getParam p)
    (hpm : "limit" ∉ pm.filterFields ∧ "offset" ∉ pm.filterFields)
    (hrt : ∀ t m, rt t = some m → "limit" ∉ m.filterFields ∧ "offset" ∉ m.filterFields) :
    pages_pre rt pm bc ap sb r1 = pages_pre rt pm bc ap sb r2 := by
  unfold pages_pre
  rw [pages_get_model_congr rt pm r1 r2 (hp "type" (by decide) (by decide))]
  cases hm : pages_get_model rt pm r2 with
  | error e => rfl
  | ok m =>
    have hflds : "limit" ∉ m.filterFields ∧ "offset" ∉ m.filterFields := by
      rcases pages_get_model_ok rt pm r2 m hm with rfl | ⟨t, ht⟩
      · exact hpm
      · exact hrt t m ht
    have hff : ∀ f ∈ m.filterFields, r1.getParam f = r2.getParam f := by
      intro f hf
      exact hp f (fun hlim => hflds.1 (hlim ▸ hf)) (fun hoff => hflds.2 (hoff ▸ hf))
    simp only
    rw [do_field_filtering_congr _ _ _ hff (bc m),
      do_child_of_filter_congr ap r1 r2 (hp "child_of" (by decide) (by decide))]
    cases do_child_of_filter ap r2 (do_field_filtering m.filterFields r2 (bc m)) with
    | error e => rfl
    | ok qs1 =>
      simp only
      rw [do_ordering_congr _ _ _ _ (hp "order" (by decide) (by decide)) qs1]
      cases do_ordering pages_get_api_fields m r2 qs1 with
      | error e => rfl
      | ok qs2 => simp only; rw [do_search_congr sb r1 r2 (hp "search" (by decide) (by decide)) qs2]

/-! Extraction lemmas for the listing views. -/

theorem documents_listing_ok_pre (dm : Model) (sb : SearchBackend) (docs : List Obj)
    (req : Request) (b : Body)
    (h : documents_listing_view dm sb docs req = Except.ok b) :
    ∃ qs, documents_pre dm sb docs req = Except.ok qs := by
  unfold documents_listing_view at h
  cases hq : documents_pre dm sb docs req with
  | error e => simp only [hq] at h; exact absurd h (by simp)
  | ok qs => exact ⟨qs, rfl⟩

theorem documents_listing_total (dm : Model) (sb : SearchBackend) (docs : List Obj)
    (req : Request) (qs : List Obj) (tc : Nat) (n : String)
    (items : List (List (String × Value)))
    (hpre : documents_pre dm sb docs req = Except.ok qs)
    (h : documents_listing_view dm sb docs req = Except.ok (Body.listing tc n items)) :
    tc = qs.length ∧ ∃ page, do_pagination req qs = Except.ok page ∧
      items = page.map (fun d =>
        serialize_object documents_get_api_fields base_serialize_object_metadata
          d ["title"] false false) := by
  unfold documents_listing_view at h
  rw [hpre] at h
  cases hp : do_pagination req qs with
  | error e => simp only [hp] at h; exact absurd h (by simp)
  | ok page =>
    simp only [hp, Except.ok.injEq, Body.listing.injEq] at h
    exact ⟨h.1.symm, page, rfl, h.2.2.symm⟩

theorem images_listing_ok_pre (im : Model) (sb : SearchBackend) (imgs : List Obj)
    (req : Request) (b : Body)
    (h : images_listing_view im sb imgs req = Except.ok b) :
    ∃ qs, images_pre im sb imgs req = Except.ok qs := by
  unfold images_listing_view at h
  cases hq : images_pre im sb imgs req with
  | error e => simp only [hq] at h; exact absurd h (by simp)
  | ok qs => exact ⟨qs, rfl⟩

theorem images_listing_total (im : Model) (sb : SearchBackend) (imgs : List Obj)
    (req : Request) (qs : List Obj) (tc : Nat) (n : String)
    (items : List (List (String × Value)))
    (hpre : images_pre im sb imgs req = Except.ok qs)
    (h : images_listing_view im sb imgs req = Except.ok (Body.listing tc n items)) :
    tc = qs.length ∧ ∃ page, do_pagination req qs = Except.ok page ∧
      items = page.map (fun i =>
        serialize_object images_get_api_fields base_serialize_object_metadata i
          (match req.getParam "fields" with
           | some s => s.splitOn ","
           | none => ["title"]) false false) := by
  unfold images_listing_view at h
  rw [hpre] at h
  cases hp : do_pagination req qs with
  | error e => simp only [hp] at h; exact absurd h (by simp)
  | ok page =>
    simp only [hp, Except.ok.injEq, Body.listing.injEq] at h
    exact ⟨h.1.symm, page, rfl, h.2.2.symm⟩

theorem pages_listing_ok_pre (rt : String → Option Model) (pm : Model)
    (bc : Model → List Obj) (ap : List Obj) (sb : SearchBackend)
    (req : Request) (b : Body)
    (h : pages_listing_view rt pm bc ap sb req = Except.ok b) :
    ∃ qs, pages_pre rt pm bc ap sb req = Except.ok qs := by
  unfold pages_listing_view at h
  cases hq : pages_pre rt pm bc ap sb req with
  | error e => simp only [hq] at h; exact absurd h (by simp)
  | ok qs => exact ⟨qs, rfl⟩

theorem pages_listing_total (rt : String → Option Model) (pm : Model)
    (bc : Model → List Obj) (ap : List Obj) (sb : SearchBackend)
    (req : Request) (qs : List Obj) (tc : Nat) (n : String)
    (items : List (List (String × Value)))
    (hpre : pages_pre rt pm bc ap sb req = Except.ok qs)
    (h : pages_listing_view rt pm bc ap sb req = Except.ok (Body.listing tc n items)) :
    tc = qs.length ∧ ∃ page, do_pagination req qs = Except.ok page ∧
      items = page.map (fun p =>
        serialize_object pages_get_api_fields pages_serialize_object_metadata p
          (match req.getParam "fields" with
           | some s => s.splitOn ","
           | none => ["title"]) false false) := by
  unfold pages_listing_view at h
  rw [hpre] at h
  cases hp : do_pagination req qs with
  | error e => simp only [hp] at h; exact absurd h (by simp)
  | ok page =>
    simp only [hp, Except.ok.injEq, Body.listing.injEq] at h
    exact ⟨h.1.symm, page, rfl, h.2.2.symm⟩

/-- C1: for every listing of every kind (documents, images, pages), the
reported `meta.total_count` equals the size of the collection as it
stands after field filtering, scope filtering, ordering and search (the
pre-pagination pipeline), and two requests that differ only in their
`limit` and `offset` parameters (which name no filterable model field)
report the same total_count. -/
theorem c1_total_count_invariant :
    (∀ (dm : Model) (sb : SearchBackend) (docs : List Obj) (r : Request)
       (qs : List Obj) (tc : Nat) (n : String) (items : List (List (String × Value))),
       documents_pre dm sb docs r = Except.ok qs →
       documents_listing_view dm sb docs r = Except.ok (Body.listing tc n items) →
       tc = qs.length)
  ∧ (∀ (dm : Model) (sb : SearchBackend) (docs : List Obj) (r1 r2 : Request)
       (tc1 tc2 : Nat) (n1 n2 : String) (i1 i2 : List (List (String × Value))),
       "limit" ∉ dm.filterFields → "offset" ∉ dm.filterFields →
       (∀ p, p ≠ "limit" → p ≠ "offset" → r1.getParam p = r2.getParam p) →
       documents_listing_view dm sb docs r1 = Except.ok (Body.listing tc1 n1 i1) →
       documents_listing_view dm sb docs r2 = Except.ok (Body.listing tc2 n2 i2) →
       tc1 = tc2)
  ∧ (∀ (im : Model) (sb : SearchBackend) (imgs : List Obj) (r : Request)
       (qs : List Obj) (tc : Nat) (n : String) (items : List (List (String × Value))),
       images_pre im sb imgs r = Except.ok qs →
       images_listing_view im sb imgs r = Except.ok (Body.listing tc n items) →
       tc = qs.length)
  ∧ (∀ (im : Model) (sb : SearchBackend) (imgs : List Obj) (r1 r2 : Request)
       (tc1 tc2 : Nat) (n1 n2 : String) (i1 i2 : List (List (String × Value))),
       "limit" ∉ im.filterFields → "offset" ∉ im.filterFields →
       (∀ p, p ≠ "limit" → p ≠ "offset" → r1.getParam p = r2.getParam p) →
       images_listing_view im sb imgs r1 = Except.ok (Body.listing tc1 n1 i1) →
       images_listing_view im sb imgs r2 = Except.ok (Body.listing tc2 n2 i2) →
       tc1 = tc2)
  ∧ (∀ (rt : String → Option Model) (pm : Model) (bc : Model → List Obj)
       (ap : List Obj) (sb : SearchBackend) (r : Request)
       (qs : List Obj) (tc : Nat) (n : String) (items : List (List (String × Value))),
       pages_pre rt pm bc ap sb r = Except.ok qs →
       pages_listing_view rt pm bc ap sb r = Except.ok (Body.listing tc n items) →
       tc = qs.length)
  ∧ (∀ (rt : String → Option Model) (pm : Model) (bc : Model → List Obj)
       (ap : List Obj) (sb : SearchBackend) (r1 r2 : Request)
       (tc1 tc2 : Nat) (n1 n2 : String) (i1 i2 : List (List (String × Value))),
       ("limit" ∉ pm.filterFields ∧ "offset" ∉ pm.filterFields) →
       (∀ t m, rt t = some m → "limit" ∉ m.filterFields ∧ "offset" ∉ m.filterFields) →
       (∀ p, p ≠ "limit" → p ≠ "offset" → r1.getParam p = r2.getParam p) →
       pages_listing_view rt pm bc ap sb r1 = Except.ok (Body.listing tc1 n1 i1) →
       pages_listing_view rt pm bc ap sb r2 = Except.ok (Body.listing tc2 n2 i2) →
       tc1 = tc2) := by
  refine ⟨?_, ?_, ?_, ?_, ?_, ?_⟩
  · intro dm sb docs r qs tc n items hpre h
    exact (documents_listing_total dm sb docs r qs tc n items hpre h).1
  · intro dm sb docs r1 r2 tc1 tc2 n1 n2 i1 i2 hl ho hp h1 h2
    obtain ⟨qs, hq1⟩ := documents_listing_ok_pre dm sb docs r1 _ h1
    have hcong : documents_pre dm sb docs r1 = documents_pre dm sb docs r2 :=
      documents_pre_congr dm sb docs r1 r2
        (fun f hf => hp f (fun he => hl (he ▸ hf)) (fun he => ho (he ▸ hf)))
        (hp "order" (by decide) (by decide)) (hp "search" (by decide) (by decide))
    have hq2 : documents_pre dm sb docs r2 = Except.ok qs := hcong ▸ hq1
    rw [(documents_listing_total dm sb docs r1 qs tc1 n1 i1 hq1 h1).1,
      (documents_listing_total dm sb docs r2 qs tc2 n2 i2 hq2 h2).1]
  · intro im sb imgs r qs tc n items hpre h
    exact (images_listing_total im sb imgs r qs tc n items hpre h).1
  · intro im sb imgs r1 r2 tc1 tc2 n1 n2 i1 i2 hl ho hp h1 h2
    obtain ⟨qs, hq1⟩ := images_listing_ok_pre im sb imgs r1 _ h1
    have hcong : images_pre im sb imgs r1 = images_pre im sb imgs r2 :=
      images_pre_congr im sb imgs r1 r2
        (fun f hf => hp f (fun he => hl (he ▸ hf)) (fun he => ho (he ▸ hf)))
        (hp "order" (by decide) (by decide)) (hp "search" (by decide) (by decide))
    have hq2 : images_pre im sb imgs r2 = Except.ok qs := hcong ▸ hq1
    rw [(images_listing_total im sb imgs r1 qs tc1 n1 i1 hq1 h1).1,
      (images_listing_total im sb imgs r2 qs tc2 n2 i2 hq2 h2).1]
  · intro rt pm bc ap sb r qs tc n items hpre h
    exact (pages_listing_total rt pm bc ap sb r qs tc n items hpre h).1
  · intro rt pm bc ap sb r1 r2 tc1 tc2 n1 n2 i1 i2 hpm hrt hp h1 h2
    obtain ⟨qs, hq1⟩ := pages_listing_ok_pre rt pm bc ap sb r1 _ h1
    have hcong : pages_pre rt pm bc ap sb r1 = pages_pre rt pm bc ap sb r2 :=
      pages_pre_congr rt pm bc ap sb r1 r2 hp hpm hrt
    have hq2 : pages_pre rt pm bc ap sb r2 = Except.ok qs := hcong ▸ hq1
    rw [(pages_listing_total rt pm bc ap sb r1 qs tc1 n1 i1 hq1 h1).1,
      (pages_listing_total rt pm bc ap sb r2 qs tc2 n2 i2 hq2 h2).1]

/-- Witness for C1: a concrete two-document collection listed with
`limit=1` and with `offset=1` reports the same total_count, 2, in both
cases. -/
theorem c1_total_count_invariant_witness :
    documents_listing_view ⟨some [], ["title"]⟩ (fun _ l => l)
      [mkDoc 1 "a", mkDoc 2 "b"] ⟨[("limit", "1")]⟩ =
      Except.ok (Body.listing 2 "documents"
        [[("id", Value.scalar (Scalar.int 1)), ("title", Value.scalar (Scalar.str "a"))]])
    ∧ documents_listing_view ⟨some [], ["title"]⟩ (fun _ l => l)
      [mkDoc 1 "a", mkDoc 2 "b"] ⟨[("offset", "1")]⟩ =
      Except.ok (Body.listing 2 "documents"
        [[("id", Value.scalar (Scalar.int 2)), ("title", Value.scalar (Scalar.str "b"))]])
    ∧ (2 : Nat) = 2 := by
  have h2 := c1_total_count_invariant.2.1 ⟨some [], ["title"]⟩ (fun _ l => l)
    [mkDoc 1 "a", mkDoc 2 "b"] ⟨[("limit", "1")]⟩ ⟨[("offset", "1")]⟩
    2 2 "documents" "documents"
    [[("id", Value.scalar (Scalar.int 1)), ("title", Value.scalar (Scalar.str "a"))]]
    [[("id", Value.scalar (Scalar.int 2)), ("title", Value.scalar (Scalar.str "b"))]]
    (by decide) (by decide)
    (by
      intro p hpl hpo
      show Request.getParam ⟨[("limit", "1")]⟩ p = Request.getParam ⟨[("offset", "1")]⟩ p
      unfold Request.getParam
      simp only [List.reverse_cons, List.reverse_nil, List.nil_append, List.find?]
      have h1 : (("limit" : String) = p) = False := by
        simp [eq_comm]
        intro he
        exact hpl he
      have h2 : (("offset" : String) = p) = False := by
        simp [eq_comm]
        intro he
        exact hpo he
      simp [h1, h2])
    rfl rfl
  exact ⟨rfl, rfl, h2⟩

/-- C2 (the code's actual behavior at the failing input): a documents
listing request whose only parameter is the unknown field name
`not_a_field` is not rejected — the generated filter set silently drops
the unrecognized key and the view answers HTTP 200 with the full
collection, instead of the BadRequest/400 naming the field that the
spec (and the repo's own `test_filtering_unknown_field_gives_error`,
marked expectedFailure) requires. -/
theorem c2_unknown_field_not_rejected :
    api_view (documents_listing_view ⟨some ["tag"], ["title", "tag"]⟩ (fun _ l => l)
        [docObjEx] ⟨[("not_a_field", "abc")]⟩) =
      ⟨200, Body.listing 1 "documents"
        [[("id", Value.scalar (Scalar.int 1)),
          ("title", Value.scalar (Scalar.str "A Clockwork Orange"))]]⟩ := rfl

/-- C3: with `order=-f` the ordering stage returns exactly the reversal
of the sequence the same listing with `order=f` returns (the code sorts
ascending, then reverses the sequence); on a collection with a tie on
the field this differs from an independent stable descending sort,
exhibited concretely on two distinct objects sharing a title. -/
theorem c3_descending_is_reversal :
    (∀ (G : Model → List String) (m : Model) (order0 : String) (qs : List Obj),
       startsWithDash order0 = true →
       startsWithDash (order0.drop 1) = false →
       do_ordering G m ⟨[("order", order0)]⟩ qs =
         (do_ordering G m ⟨[("order", order0.drop 1)]⟩ qs).map List.reverse)
  ∧ (do_ordering documents_get_api_fields ⟨some [], []⟩
       ⟨[("order", "-title")]⟩ [mkDoc 1 "same", mkDoc 2 "same"] =
       Except.ok [mkDoc 2 "same", mkDoc 1 "same"]
     ∧ stableDescSort "title" [mkDoc 1 "same", mkDoc 2 "same"] =
       [mkDoc 1 "same", mkDoc 2 "same"]
     ∧ mkDoc 1 "same" ≠ mkDoc 2 "same") := by
  constructor
  · intro G m order0 qs h1 h2
    have hga : Request.getParam ⟨[("order", order0)]⟩ "order" = some order0 := rfl
    have hgb : Request.getParam ⟨[("order", order0.drop 1)]⟩ "order" =
        some (order0.drop 1) := rfl
    unfold do_ordering
    simp only [hga, hgb, h1, h2]
    by_cases hv : order0.drop 1 = "id" ∨ order0.drop 1 ∈ G m
    · simp [hv, Except.map]
    · simp [hv, Except.map]
  · exact ⟨rfl, rfl, by decide⟩

/-- Witness for C3: the reversal identity at the concrete order
parameter `-title` on a concrete two-element collection. -/
theorem c3_descending_is_reversal_witness :
    do_ordering documents_get_api_fields ⟨some [], []⟩ ⟨[("order", "-title")]⟩
      [mkDoc 2 "b", mkDoc 1 "a"] =
      (do_ordering documents_get_api_fields ⟨some [], []⟩
        ⟨[("order", "-title".drop 1)]⟩ [mkDoc 2 "b", mkDoc 1 "a"]).map List.reverse :=
  c3_descending_is_reversal.1 documents_get_api_fields ⟨some [], []⟩ "-title"
    [mkDoc 2 "b", mkDoc 1 "a"] (by decide) (by decide)

/-- Successful pagination: with a well-formed non-negative offset and
limit the result is the half-open slice of the collection. -/
theorem do_pagination_eq_slice (req : Request) (qs : List Obj) (so sl : String)
    (o l : Int) (hso : req.getParam "offset" = some so) (ho : pyInt so = some o)
    (ho0 : 0 ≤ o) (hsl : req.getParam "limit" = some sl) (hl : pyInt sl = some l)
    (hl0 : 0 ≤ l) :
    do_pagination req qs = Except.ok ((qs.drop o.toNat).take l.toNat) := by
  unfold do_pagination
  simp [hso, ho, hsl, hl, ho0, hl0]

/-- C4: pagination parses `offset` with default 0 and `limit` with
default 20; a value that fails to parse as a non-negative integer
raises BadRequest with the exact message for its parameter, surfaced as
HTTP 400 by the view wrapper; a non-negative value, including 0, is
accepted. -/
theorem c4_pagination_parsing :
    (∀ (req : Request) (qs : List Obj),
       req.getParam "offset" = none → req.getParam "limit" = none →
       do_pagination req qs = Except.ok (qs.take 20))
  ∧ (∀ (req : Request) (qs : List Obj) (s : String),
       req.getParam "offset" = some s → pyInt s = none →
       do_pagination req qs =
         Except.error (ApiError.badRequest "offset must be a positive integer"))
  ∧ (∀ (req : Request) (qs : List Obj) (s : String) (o : Int),
       req.getParam "offset" = some s → pyInt s = some o → o < 0 →
       do_pagination req qs =
         Except.error (ApiError.badRequest "offset must be a positive integer"))
  ∧ (∀ (req : Request) (qs : List Obj) (s : String),
       req.getParam "offset" = none → req.getParam "limit" = some s → pyInt s = none →
       do_pagination req qs =
         Except.error (ApiError.badRequest "limit must be a positive integer"))
  ∧ (∀ (req : Request) (qs : List Obj) (s : String) (l : Int),
       req.getParam "offset" = none → req.getParam "limit" = some s →
       pyInt s = some l → l < 0 →
       do_pagination req qs =
         Except.error (ApiError.badRequest "limit must be a positive integer"))
  ∧ (∀ (req : Request) (qs : List Obj) (so sl : String) (o l : Int),
       req.getParam "offset" = some so → pyInt so = some o → 0 ≤ o →
       req.getParam "limit" = some sl → pyInt sl = some l → 0 ≤ l →
       do_pagination req qs = Except.ok ((qs.drop o.toNat).take l.toNat))
  ∧ (api_view (documents_listing_view ⟨some [], ["title"]⟩ (fun _ l => l) []
       ⟨[("offset", "abc")]⟩) =
       ⟨400, Body.errorMessage "offset must be a positive integer"⟩
     ∧ api_view (documents_listing_view ⟨some [], ["title"]⟩ (fun _ l => l) []
       ⟨[("limit", "2.5")]⟩) =
       ⟨400, Body.errorMessage "limit must be a positive integer"⟩) := by
  refine ⟨?_, ?_, ?_, ?_, ?_, ?_, rfl, rfl⟩
  · intro req qs hoff hlim
    unfold do_pagination
    simp [hoff, hlim]
  · intro req qs s hoff hpy
    unfold do_pagination
    simp [hoff, hpy]
  · intro req qs s o hoff hpy hneg
    have h0 : ¬ (0 ≤ o) := by omega
    unfold do_pagination
    simp [hoff, hpy, h0]
  · intro req qs s hoff hlim hpy
    unfold do_pagination
    simp [hoff, hlim, hpy]
  · intro req qs s l hoff hlim hpy hneg
    have h0 : ¬ (0 ≤ l) := by omega
    unfold do_pagination
    simp [hoff, hlim, hpy, h0]
  · intro req qs so sl o l hso ho ho0 hsl hl hl0
    exact do_pagination_eq_slice req qs so sl o l hso ho ho0 hsl hl hl0

/-- Witness for C4: concrete malformed, negative, zero and absent
offset and limit values behave as the theorem states. -/
theorem c4_pagination_parsing_witness :
    do_pagination ⟨[("offset", "abc")]⟩ [] =
      Except.error (ApiError.badRequest "offset must be a positive integer")
    ∧ do_pagination ⟨[("limit", "-3")]⟩ [] =
      Except.error (ApiError.badRequest "limit must be a positive integer")
    ∧ do_pagination ⟨[("offset", "0"), ("limit", "0")]⟩ [mkDoc 1 "t"] = Except.ok []
    ∧ do_pagination ⟨[]⟩ [mkDoc 1 "t"] = Except.ok [mkDoc 1 "t"] := by
  refine ⟨?_, ?_, ?_, ?_⟩
  · exact c4_pagination_parsing.2.1 ⟨[("offset", "abc")]⟩ [] "abc" rfl rfl
  · exact c4_pagination_parsing.2.2.2.2.1 ⟨[("limit", "-3")]⟩ [] "-3" (-3)
      rfl rfl rfl (by decide)
  · exact c4_pagination_parsing.2.2.2.2.2.1 ⟨[("offset", "0"), ("limit", "0")]⟩
      [mkDoc 1 "t"] "0" "0" 0 0 rfl rfl (by decide) rfl rfl (by decide)
  · exact c4_pagination_parsing.1 ⟨[]⟩ [mkDoc 1 "t"] rfl rfl

/-- C5: with a valid offset and limit, the page is the half-open slice
[offset, offset+limit) of the post-search collection: the element at
position offset heads the page (when the limit is positive and the
offset is in range), and an offset at or past the collection size
yields the empty remainder rather than an error. -/
theorem c5_pagination_slice :
    ∀ (req : Request) (qs : List Obj) (so sl : String) (o l : Int),
      req.getParam "offset" = some so → pyInt so = some o → 0 ≤ o →
      req.getParam "limit" = some sl → pyInt sl = some l → 0 ≤ l →
      do_pagination req qs = Except.ok ((qs.drop o.toNat).take l.toNat)
      ∧ (0 < l.toNat → o.toNat < qs.length →
          ((qs.drop o.toNat).take l.toNat).head? = qs[o.toNat]?)
      ∧ (qs.length ≤ o.toNat → (qs.drop o.toNat).take l.toNat = []) := by
  intro req qs so sl o l hso ho ho0 hsl hl hl0
  refine ⟨do_pagination_eq_slice req qs so sl o l hso ho ho0 hsl hl hl0, ?_, ?_⟩
  · intro hlpos _
    rw [List.head?_take, if_neg (by omega), List.head?_drop]
  · intro hge
    rw [List.drop_eq_nil_of_le hge, List.take_nil]

/-- Witness for C5: offset 1 and limit 2 on a concrete three-document
collection return the second and third documents, headed by the element
at position 1. -/
theorem c5_pagination_slice_witness :
    do_pagination ⟨[("offset", "1"), ("limit", "2")]⟩
      [mkDoc 1 "a", mkDoc 2 "b", mkDoc 3 "c"] =
      Except.ok [mkDoc 2 "b", mkDoc 3 "c"]
    ∧ [mkDoc 2 "b", mkDoc 3 "c"].head? = some (mkDoc 2 "b") := by
  have h := c5_pagination_slice ⟨[("offset", "1"), ("limit", "2")]⟩
    [mkDoc 1 "a", mkDoc 2 "b", mkDoc 3 "c"] "1" "2" 1 2
    rfl rfl (by decide) rfl rfl (by decide)
  exact ⟨h.1, rfl⟩

/-- C6 counterexample: with a model declaring `api_fields = ['title']`,
the pages registry is `['title', 'title']` — the endpoint performs no
deduplication, so the registry contains a duplicate name, refuting the
no-duplicates part of the claim. -/
theorem c6_registry_duplicate_counterexample :
    pages_get_api_fields ⟨some ["title"], []⟩ = ["title", "title"]
    ∧ ¬ (pages_get_api_fields ⟨some ["title"], []⟩).Nodup :=
  ⟨rfl, by decide⟩

/-- C6 amended: each endpoint registry equals its base fields followed
by the kind's declared api_fields, preserving declaration order; no
deduplication is performed, and the pages registry is duplicate-free
exactly when the declared fields are duplicate-free and do not repeat
the base field `title`. -/
theorem c6_registry_concatenation :
    (∀ m : Model, pages_get_api_fields m = ["title"] ++ base_get_api_fields m)
  ∧ (∀ m : Model,
      images_get_api_fields m = ["title", "width", "height"] ++ base_get_api_fields m)
  ∧ (∀ m : Model, documents_get_api_fields m = ["title"] ++ base_get_api_fields m)
  ∧ (∀ (m : Model) (fs : List String), m.apiFields = some fs →
      ((pages_get_api_fields m).Nodup ↔ "title" ∉ fs ∧ fs.Nodup)) := by
  refine ⟨fun m => rfl, fun m => rfl, fun m => rfl, ?_⟩
  intro m fs h
  unfold pages_get_api_fields base_get_api_fields
  rw [h]
  simp [List.nodup_cons]

/-- Witness for C6 amended: a registry over a declared field distinct
from `title` is duplicate-free. -/
theorem c6_registry_concatenation_witness :
    (pages_get_api_fields ⟨some ["author"], []⟩).Nodup :=
  (c6_registry_concatenation.2.2.2 ⟨some ["author"], []⟩ ["author"] rfl).mpr (by decide)

/-- C7 counterexample: `title` is declared for the bare document, yet
serializing it with all_fields=true omits it (the field resolves to
nothing on the object), so not every declared field is present in the
document. -/
theorem c7_declared_field_omitted_counterexample :
    "title" ∈ documents_get_api_fields docObjBare.model
    ∧ (serialize_object documents_get_api_fields base_serialize_object_metadata
        docObjBare [] true false).map Prod.fst = ["id"] :=
  ⟨by decide, rfl⟩

/-- C7 amended: with all_fields=true the serialized keys are exactly
`id`, `meta` when the metadata is non-empty, and those declared fields
that resolve on the entity (child relation with api_fields, stored
field, or attribute), in declaration order with first-occurrence
deduplication; every declared resolvable field is present and no
undeclared field appears. -/
theorem c7_all_fields_registry :
    ∀ (G : Model → List String) (M : Obj → Bool → List (String × Scalar))
      (obj : Obj) (fields : List String) (sd : Bool),
      (serialize_object G M obj fields true sd).map Prod.fst =
        dedupKeys (("id" :: (if (M obj sd).isEmpty then [] else ["meta"]))
          ++ (G obj.model).filter (fun f => (resolveField obj f).isSome))
      ∧ (∀ f ∈ G obj.model, (resolveField obj f).isSome →
          f ∈ (serialize_object G M obj fields true sd).map Prod.fst)
      ∧ (∀ k ∈ (serialize_object G M obj fields true sd).map Prod.fst,
          k = "id" ∨ k = "meta" ∨ k ∈ G obj.model) := by
  intro G M obj fields sd
  have hkeys : (serialize_object G M obj fields true sd).map Prod.fst =
      dedupKeys (("id" :: (if (M obj sd).isEmpty then [] else ["meta"]))
        ++ (G obj.model).filter (fun f => (resolveField obj f).isSome)) :=
    serialize_object_map_fst G M obj fields true sd
  refine ⟨hkeys, ?_, ?_⟩
  · intro f hf hres
    rw [hkeys, mem_dedupKeys]
    exact List.mem_append.mpr (Or.inr (List.mem_filter.mpr ⟨hf, hres⟩))
  · intro k hk
    rw [hkeys, mem_dedupKeys] at hk
    rcases List.mem_append.mp hk with h1 | h2
    · rcases List.mem_cons.mp h1 with rfl | h1b
      · exact Or.inl rfl
      · cases hie : (M obj sd).isEmpty with
        | false =>
          simp only [hie] at h1b
          exact Or.inr (Or.inl (by simpa using h1b))
        | true =>
          simp only [hie] at h1b
          exact absurd h1b (by simp)
    · exact Or.inr (Or.inr (List.mem_filter.mp h2).1)

/-- Witness for C7 amended: the declared stored field `title` of a
concrete document is present among the keys of its all_fields
serialization. -/
theorem c7_all_fields_registry_witness :
    "title" ∈ (serialize_object documents_get_api_fields base_serialize_object_metadata
      docObjEx [] true false).map Prod.fst :=
  (c7_all_fields_registry documents_get_api_fields base_serialize_object_metadata
    docObjEx [] false).2.1 "title" (by decide) (by decide)

/-- With all_fields false, every key of a serialized document is `id`,
`meta` (only with non-empty metadata), or a requested declared
field. -/
theorem serialize_object_keys_cases (G : Model → List String)
    (M : Obj → Bool → List (String × Scalar)) (obj : Obj) (fields : List String)
    (sd : Bool) :
    ∀ k ∈ (serialize_object G M obj fields false sd).map Prod.fst,
      k = "id" ∨ (k = "meta" ∧ M obj sd ≠ []) ∨ (k ∈ fields ∧ k ∈ G obj.model) := by
  intro k hk
  rw [serialize_object_map_fst, mem_dedupKeys] at hk
  rcases List.mem_append.mp hk with h1 | h2
  · rcases List.mem_cons.mp h1 with rfl | h1b
    · exact Or.inl rfl
    · cases hie : (M obj sd).isEmpty with
      | false =>
        simp only [hie] at h1b
        have hk2 : k = "meta" := by simpa using h1b
        refine Or.inr (Or.inl ⟨hk2, ?_⟩)
        intro hnil
        rw [hnil] at hie
        simp at hie
      | true =>
        simp only [hie] at h1b
        exact absurd h1b (by simp)
  · have hmem := (List.mem_filter.mp h2).1
    have hmem2 : k ∈ fields.filter (fun f => f ∈ G obj.model) := hmem
    have h3 := List.mem_filter.mp hmem2
    exact Or.inr (Or.inr ⟨h3.1, by simpa using h3.2⟩)

/-- C9: `serialize_object` emits `id` as the first key; a `meta` block
appears exactly when the endpoint metadata is non-empty (given no
declared field is itself named `meta`), so no empty meta object is ever
emitted; and with all_fields false only requested fields present in the
registry are emitted, so a client cannot obtain an undeclared field. -/
theorem c9_serialize_shape :
    ∀ (G : Model → List String) (M : Obj → Bool → List (String × Scalar))
      (obj : Obj) (fields : List String) (af sd : Bool),
      ((serialize_object G M obj fields af sd).map Prod.fst).head? = some "id"
      ∧ ("meta" ∉ G obj.model →
          ("meta" ∈ (serialize_object G M obj fields af sd).map Prod.fst ↔
            M obj sd ≠ []))
      ∧ (∀ k ∈ (serialize_object G M obj fields false sd).map Prod.fst,
          k ≠ "id" → k ≠ "meta" → k ∈ fields ∧ k ∈ G obj.model) := by
  intro G M obj fields af sd
  refine ⟨?_, ?_, ?_⟩
  · rw [serialize_object_map_fst, List.cons_append, head?_dedupKeys_cons]
  · intro hmeta
    constructor
    · intro hk
      rw [serialize_object_map_fst, mem_dedupKeys] at hk
      rcases List.mem_append.mp hk with h1 | h2
      · rcases List.mem_cons.mp h1 with h0 | h1b
        · exact absurd h0 (by decide)
        · cases hie : (M obj sd).isEmpty with
          | false =>
            intro hnil
            rw [hnil] at hie
            simp at hie
          | true =>
            simp only [hie] at h1b
            exact absurd h1b (by simp)
      · exfalso
        have hmem := (List.mem_filter.mp h2).1
        cases af with
        | true => exact hmeta hmem
        | false =>
          have hmem2 : "meta" ∈ fields.filter (fun f => f ∈ G obj.model) := hmem
          have h3 := List.mem_filter.mp hmem2
          exact hmeta (by simpa using h3.2)
    · intro hne
      rw [serialize_object_map_fst, mem_dedupKeys]
      apply List.mem_append.mpr
      refine Or.inl (List.mem_cons.mpr (Or.inr ?_))
      have hie : (M obj sd).isEmpty = false := by
        cases hmm : M obj sd with
        | nil => exact absurd hmm hne
        | cons a t => rfl
      simp [hie]
  · intro k hk h1 h2
    rcases serialize_object_keys_cases G M obj fields sd k hk with h | h | h
    · exact absurd h h1
    · exact absurd h.1 h2
    · exact h

/-- Witness for C9: the shape facts at a concrete document serialized
with the requested field list ('title',): `id` heads the keys, no
`meta` block appears (the documents endpoint has empty metadata), and
the requested declared field is both requested and declared. -/
theorem c9_serialize_shape_witness :
    ((serialize_object documents_get_api_fields base_serialize_object_metadata
        docObjEx ["title"] false false).map Prod.fst).head? = some "id"
    ∧ "meta" ∉ (serialize_object documents_get_api_fields base_serialize_object_metadata
        docObjEx ["title"] false false).map Prod.fst
    ∧ ("title" ∈ ["title"] ∧ "title" ∈ documents_get_api_fields docObjEx.model) := by
  have h := c9_serialize_shape documents_get_api_fields base_serialize_object_metadata
    docObjEx ["title"] false false
  refine ⟨h.1, ?_, ?_⟩
  · intro hm
    exact (h.2.1 (by decide)).mp hm rfl
  · exact h.2.2 "title" (by decide) (by decide) (by decide)

/-- C10: when the `fields` parameter is absent, the pages and images
listings serialize every result with the fixed requested list
('title',), and the documents listing does so unconditionally — so a
listing document never contains a declared field other than `title`,
besides `id` and, for pages, `meta` (images and documents have empty
metadata, so not even `meta`). -/
theorem c10_default_fields_title_only :
    (∀ (rt : String → Option Model) (pm : Model) (bc : Model → List Obj)
       (ap : List Obj) (sb : SearchBackend) (req : Request) (tc : Nat) (n : String)
       (items : List (List (String × Value))),
       req.getParam "fields" = none →
       pages_listing_view rt pm bc ap sb req = Except.ok (Body.listing tc n items) →
       ∀ d ∈ items, ∀ k ∈ d.map Prod.fst, k = "id" ∨ k = "meta" ∨ k = "title")
  ∧ (∀ (im : Model) (sb : SearchBackend) (imgs : List Obj) (req : Request) (tc : Nat)
       (n : String) (items : List (List (String × Value))),
       req.getParam "fields" = none →
       images_listing_view im sb imgs req = Except.ok (Body.listing tc n items) →
       ∀ d ∈ items, ∀ k ∈ d.map Prod.fst, k = "id" ∨ k = "title")
  ∧ (∀ (dm : Model) (sb : SearchBackend) (docs : List Obj) (req : Request) (tc : Nat)
       (n : String) (items : List (List (String × Value))),
       documents_listing_view dm sb docs req = Except.ok (Body.listing tc n items) →
       ∀ d ∈ items, ∀ k ∈ d.map Prod.fst, k = "id" ∨ k = "title") := by
  refine ⟨?_, ?_, ?_⟩
  · intro rt pm bc ap sb req tc n items hfields h d hd k hk
    obtain ⟨qs, hpre⟩ := pages_listing_ok_pre rt pm bc ap sb req _ h
    obtain ⟨_, page, _, hitems⟩ :=
      pages_listing_total rt pm bc ap sb req qs tc n items hpre h
    rw [hitems] at hd
    obtain ⟨p, _, hp⟩ := List.mem_map.mp hd
    rw [← hp] at hk
    simp only [hfields] at hk
    rcases serialize_object_keys_cases pages_get_api_fields
      pages_serialize_object_metadata p ["title"] false k hk with h1 | h1 | h1
    · exact Or.inl h1
    · exact Or.inr (Or.inl h1.1)
    · exact Or.inr (Or.inr (by simpa using h1.1))
  · intro im sb imgs req tc n items hfields h d hd k hk
    obtain ⟨qs, hpre⟩ := images_listing_ok_pre im sb imgs req _ h
    obtain ⟨_, page, _, hitems⟩ :=
      images_listing_total im sb imgs req qs tc n items hpre h
    rw [hitems] at hd
    obtain ⟨p, _, hp⟩ := List.mem_map.mp hd
    rw [← hp] at hk
    simp only [hfields] at hk
    rcases serialize_object_keys_cases images_get_api_fields
      base_serialize_object_metadata p ["title"] false k hk with h1 | h1 | h1
    · exact Or.inl h1
    · exact absurd rfl h1.2
    · exact Or.inr (by simpa using h1.1)
  · intro dm sb docs req tc n items h d hd k hk
    obtain ⟨qs, hpre⟩ := documents_listing_ok_pre dm sb docs req _ h
    obtain ⟨_, page, _, hitems⟩ :=
      documents_listing_total dm sb docs req qs tc n items hpre h
    rw [hitems] at hd
    obtain ⟨p, _, hp⟩ := List.mem_map.mp hd
    rw [← hp] at hk
    rcases serialize_object_keys_cases documents_get_api_fields
      base_serialize_object_metadata p ["title"] false k hk with h1 | h1 | h1
    · exact Or.inl h1
    · exact absurd rfl h1.2
    · exact Or.inr (by simpa using h1.1)

/-- Witness for C10: a concrete documents listing without a `fields`
parameter yields a document whose keys are exactly id and title, and
the theorem instantiated at its `title` key resolves to `title`. -/
theorem c10_default_fields_title_only_witness :
    documents_listing_view ⟨some ["tag"], ["title", "tag"]⟩ (fun _ l => l) [docObjEx] ⟨[]⟩ =
      Except.ok (Body.listing 1 "documents"
        [[("id", Value.scalar (Scalar.int 1)),
          ("title", Value.scalar (Scalar.str "A Clockwork Orange"))]])
    ∧ ("title" : String) = "title" := by
  refine ⟨rfl, ?_⟩
  have h := c10_default_fields_title_only.2.2 ⟨some ["tag"], ["title", "tag"]⟩
    (fun _ l => l) [docObjEx] ⟨[]⟩ 1 "documents"
    [[("id", Value.scalar (Scalar.int 1)),
      ("title", Value.scalar (Scalar.str "A Clockwork Orange"))]]
    rfl
  have h2 := h [("id", Value.scalar (Scalar.int 1)),
      ("title", Value.scalar (Scalar.str "A Clockwork Orange"))]
    (by decide) "title" (by decide)
  rcases h2 with h2 | h2
  · exact absurd h2 (by decide)
  · exact h2

theorem do_pagination_congr (r1 r2 : Request)
    (hoff : r1.getParam "offset" = r2.getParam "offset")
    (hlim : r1.getParam "limit" = r2.getParam "limit") (qs : List Obj) :
    do_pagination r1 qs = do_pagination r2 qs := by
  unfold do_pagination
  rw [hoff, hlim]

/-- C8 counterexample: a documents listing with `fields=tag` — `tag`
being declared in the documents registry and resolvable on the object —
still serializes with ('title',): the response document carries `title`
and not `tag`, so the documents listing does not honor the `fields`
parameter the way the pages and images listings do. -/
theorem c8_documents_ignore_fields_counterexample :
    documents_listing_view ⟨some ["tag"], ["title", "tag"]⟩ (fun _ l => l) [docObjEx]
      ⟨[("fields", "tag")]⟩ =
      Except.ok (Body.listing 1 "documents"
        [[("id", Value.scalar (Scalar.int 1)),
          ("title", Value.scalar (Scalar.str "A Clockwork Orange"))]])
    ∧ "tag" ∈ documents_get_api_fields ⟨some ["tag"], ["title", "tag"]⟩
    ∧ (resolveField docObjEx "tag").isSome :=
  ⟨rfl, by decide, by decide⟩

/-- C8 amended: the pages and images listings honor the comma-split
`fields` parameter (restricted to declared fields by the serializer);
the documents listing ignores it entirely — its response is identical
for any two requests differing only in `fields` (when `fields` names no
filterable model field), every document being serialized with the fixed
list ('title',). -/
theorem c8_fields_parameter_handling :
    (∀ (rt : String → Option Model) (pm : Model) (bc : Model → List Obj)
       (ap : List Obj) (sb : SearchBackend) (req : Request) (qs page : List Obj)
       (s : String),
       pages_pre rt pm bc ap sb req = Except.ok qs →
       do_pagination req qs = Except.ok page →
       req.getParam "fields" = some s →
       pages_listing_view rt pm bc ap sb req =
         Except.ok (Body.listing qs.length "pages"
           (page.map (fun p =>
             serialize_object pages_get_api_fields pages_serialize_object_metadata p
               (s.splitOn ",") false false))))
  ∧ (∀ (im : Model) (sb : SearchBackend) (imgs : List Obj) (req : Request)
       (qs page : List Obj) (s : String),
       images_pre im sb imgs req = Except.ok qs →
       do_pagination req qs = Except.ok page →
       req.getParam "fields" = some s →
       images_listing_view im sb imgs req =
         Except.ok (Body.listing qs.length "images"
           (page.map (fun i =>
             serialize_object images_get_api_fields base_serialize_object_metadata i
               (s.splitOn ",") false false))))
  ∧ (∀ (dm : Model) (sb : SearchBackend) (docs : List Obj) (r1 r2 : Request),
       "fields" ∉ dm.filterFields →
       (∀ p, p ≠ "fields" → r1.getParam p = r2.getParam p) →
       documents_listing_view dm sb docs r1 = documents_listing_view dm sb docs r2) := by
  refine ⟨?_, ?_, ?_⟩
  · intro rt pm bc ap sb req qs page s hpre hpag hf
    unfold pages_listing_view
    rw [hpre]
    simp only [hpag, hf]
  · intro im sb imgs req qs page s hpre hpag hf
    unfold images_listing_view
    rw [hpre]
    simp only [hpag, hf]
  · intro dm sb docs r1 r2 hff hp
    unfold documents_listing_view
    have hpre : documents_pre dm sb docs r1 = documents_pre dm sb docs r2 :=
      documents_pre_congr dm sb docs r1 r2
        (fun f hf => hp f (fun he => hff (he ▸ hf)))
        (hp "order" (by decide)) (hp "search" (by decide))
    rw [hpre]
    cases documents_pre dm sb docs r2 with
    | error e => rfl
    | ok qs =>
      simp only
      rw [do_pagination_congr r1 r2 (hp "offset" (by decide)) (hp "limit" (by decide)) qs]

/-- Witness for C8 amended: a concrete documents listing gives the same
response with `fields=tag` as with no parameters at all. -/
theorem c8_fields_parameter_handling_witness :
    documents_listing_view ⟨some ["tag"], ["title", "tag"]⟩ (fun _ l => l) [docObjEx]
      ⟨[("fields", "tag")]⟩ =
      documents_listing_view ⟨some ["tag"], ["title", "tag"]⟩ (fun _ l => l) [docObjEx]
      ⟨[]⟩ := by
  apply c8_fields_parameter_handling.2.2
  · decide
  · intro p hp
    show Request.getParam ⟨[("fields", "tag")]⟩ p = Request.getParam ⟨[]⟩ p
    unfold Request.getParam
    simp only [List.reverse_cons, List.reverse_nil, List.nil_append, List.find?]
    have h1 : (("fields" : String) = p) = False := by
      simp [eq_comm]
      intro he
      exact hp he
    simp [h1]
